import Mathlib

/-!
Verification development for the Cortex dashboard stream client
(`src/pages/Dashboard.tsx`): the wire normalizer, the connection lifecycle
manager, the state reconciler and the bounded event log.

The JavaScript runtime values flowing through the normalizer are modelled by
the inductive type `JsVal` (a JSON-like tree extended with `undefined`).
Property access mirrors JavaScript: reading a property of `null`/`undefined`
throws, which we model with `Except Unit`; reading an absent property of any
other value yields `undefined`.  The React component state is modelled by the
record `DashState`, the socket callbacks and the reconnect effect by explicit
state-transformer functions, and a whole browser session by folding a list of
scheduler operations (`Op`) over the state.
-/

set_option maxRecDepth 16000

namespace Cortex

/-- JavaScript runtime values, as they appear after `JSON.parse` plus the
`undefined` value.  Numbers are modelled as integers (no claim depends on
fractional values), objects as insertion-ordered field lists. -/
inductive JsVal where
  | undefined : JsVal
  | null : JsVal
  | bool : Bool → JsVal
  | num : Int → JsVal
  | str : String → JsVal
  | arr : List JsVal → JsVal
  | obj : List (String × JsVal) → JsVal

/-- The value is `null` or `undefined` (JS "nullish", the `??` test). -/
def isNullish : JsVal → Bool
  | .undefined => true
  | .null => true
  | _ => false

/-- JavaScript truthiness (the `if (x)` / `!x` test). -/
def truthy : JsVal → Bool
  | .undefined => false
  | .null => false
  | .bool b => b
  | .num n => n != 0
  | .str s => s != ""
  | .arr _ => true
  | .obj _ => true

/-- The JavaScript `typeof` operator (note `typeof null = "object"`). -/
def typeofStr : JsVal → String
  | .undefined => "undefined"
  | .null => "object"
  | .bool _ => "boolean"
  | .num _ => "number"
  | .str _ => "string"
  | .arr _ => "object"
  | .obj _ => "object"

/-- `Array.isArray`. -/
def isArrayJs : JsVal → Bool
  | .arr _ => true
  | _ => false

/-- Elements of an array value (empty for non-arrays; used only under an
`Array.isArray` guard, mirroring `Array.isArray(x) ? x : []`). -/
def arrElems : JsVal → List JsVal
  | .arr xs => xs
  | _ => []

/-- First binding of a key in an object's field list. -/
def lookupField (fs : List (String × JsVal)) (k : String) : Option JsVal :=
  (fs.find? (fun p => p.1 == k)).map (fun p => p.2)

/-- Property read on a non-nullish receiver: objects look the key up, arrays
support numeric-string indices, every other receiver yields `undefined`.
(JavaScript: `({a:1}).b === undefined`, `"x".foo === undefined`.) -/
def getD (v : JsVal) (k : String) : JsVal :=
  match v with
  | .obj fs => (lookupField fs k).getD .undefined
  | .arr xs =>
    match k.toNat? with
    | some i => xs.getD i .undefined
    | none => .undefined
  | _ => .undefined

/-- Property read with JavaScript throw semantics: accessing any property of
`null` or `undefined` throws a `TypeError`. -/
def getE (v : JsVal) (k : String) : Except Unit JsVal :=
  if isNullish v then .error () else .ok (getD v k)

/-- The `in` operator (used by the source only on values already guarded to be
object-typed): key present in an object, index in range for an array. -/
def hasProp (v : JsVal) (k : String) : Bool :=
  match v with
  | .obj fs => fs.any (fun p => p.1 == k)
  | .arr xs =>
    match k.toNat? with
    | some i => i < xs.length
    | none => false
  | _ => false

/-- Strict equality `===` restricted to the comparisons the source performs:
primitives compare by value; an object/array on either side compares by
reference identity, which is never `true` for the string comparisons the
dashboard makes, so it is modelled as `false`. -/
def jsEq (a b : JsVal) : Bool :=
  match a, b with
  | .undefined, .undefined => true
  | .null, .null => true
  | .bool x, .bool y => x == y
  | .num x, .num y => x == y
  | .str x, .str y => x == y
  | _, _ => false

/-- The `??` operator. -/
def nc (a b : JsVal) : JsVal :=
  if isNullish a then b else a

/-- The `&&` operator (value-returning, as in `(n && n.label)`). -/
def jsAnd (a b : JsVal) : JsVal :=
  if truthy a then b else a

/-- The value is exactly `undefined`. -/
def isUndef : JsVal → Bool
  | .undefined => true
  | _ => false

mutual

/-- String conversion `String(x)` / array `toString` (arrays join their
elements with commas, rendering nullish elements as the empty string). -/
def jsToString : JsVal → String
  | .undefined => "undefined"
  | .null => "null"
  | .bool true => "true"
  | .bool false => "false"
  | .num n => toString n
  | .str s => s
  | .arr xs => String.intercalate "," (jsToStringElems xs)
  | .obj _ => "[object Object]"

/-- Element renderings for array `toString` (nullish elements render empty). -/
def jsToStringElems : List JsVal → List String
  | [] => []
  | x :: xs =>
    (if isNullish x then "" else jsToString x) :: jsToStringElems xs

end

/-- Escape for string literals inside `JSON.stringify` output. -/
def jsonEscape (s : String) : String :=
  s.foldl (fun acc c =>
    if c = '\\' then acc ++ "\\\\"
    else if c = '"' then acc ++ "\\\""
    else acc.push c) ""

mutual

/-- Rendering for `JSON.stringify` on defined values: `undefined` appearing
inside an array renders as `null`, `undefined`-valued object fields are
skipped. -/
def jsonStr : JsVal → String
  | .undefined => "null"
  | .null => "null"
  | .bool true => "true"
  | .bool false => "false"
  | .num n => toString n
  | .str s => "\"" ++ jsonEscape s ++ "\""
  | .arr xs => "[" ++ String.intercalate "," (jsonStrElems xs) ++ "]"
  | .obj fs => "\x7b" ++ String.intercalate "," (jsonStrFields fs) ++ "\x7d"

/-- Array element renderings for `JSON.stringify`. -/
def jsonStrElems : List JsVal → List String
  | [] => []
  | x :: xs => jsonStr x :: jsonStrElems xs

/-- Object field renderings for `JSON.stringify` (skips `undefined` values). -/
def jsonStrFields : List (String × JsVal) → List String
  | [] => []
  | (k, v) :: fs =>
    if isUndef v then jsonStrFields fs
    else ("\"" ++ jsonEscape k ++ "\":" ++ jsonStr v) :: jsonStrFields fs

end

/-- `JSON.stringify`: returns `undefined` (not a string) on `undefined`
input, a string otherwise (functions/symbols are not modelled). -/
def jsonStringify : JsVal → JsVal
  | .undefined => .undefined
  | v => .str (jsonStr v)

/-! ## Wire normalizer (Dashboard.tsx lines 213-420)

Normalization can throw a `TypeError` when it reads a property of a nullish
value; this is modelled with `Except Unit`.  The caller (`ws.onmessage`)
wraps the whole pipeline in `try`/`catch`. -/

/-- `normalizeModelId` (lines 213-220).  Total: every property access in the
source is guarded, and `JSON.stringify` never throws on these inputs. -/
def normalizeModelId (id : JsVal) : JsVal :=
  if typeofStr id = "string" then id
  else if truthy id ∧ typeofStr id = "object" ∧ hasProp id "0" then
    let v := getD id "0"
    if typeofStr v = "string" then v else jsonStringify id
  else jsonStringify id

/-- The `typeof mid === "string" ? mid : normalizeModelId(mid)` pattern used
at every command site (lines 246, 261, 268). -/
def normalizeMid (mid : JsVal) : JsVal :=
  if typeofStr mid = "string" then mid else normalizeModelId mid

/-- The fallback `{ kind: "upsert_model_config", config: wire }` carrying the
raw payload (lines 233-235 and 272). -/
def mkUpsertRaw (w : JsVal) : JsVal :=
  .obj [("kind", .str "upsert_model_config"), ("config", w)]

/-- The legacy single-key checks and final fallback of
`normalizeProvisioningCommand` (lines 251-272), reached when the modern
`kind` field is absent or carries an unrecognized tag. -/
def legacyCmd (wire : JsVal) : Except Unit JsVal :=
  if hasProp wire "UpsertModelConfig" then
    match getE wire "UpsertModelConfig" with
    | .error e => .error e
    | .ok c => .ok (.obj [("kind", .str "upsert_model_config"), ("config", c)])
  else if hasProp wire "LoadModel" then
    match getE wire "LoadModel" with
    | .error e => .error e
    | .ok mid => .ok (.obj [("kind", .str "load_model"), ("model_id", normalizeMid mid)])
  else if hasProp wire "UnloadModel" then
    match getE wire "UnloadModel" with
    | .error e => .error e
    | .ok mid => .ok (.obj [("kind", .str "unload_model"), ("model_id", normalizeMid mid)])
  else .ok (mkUpsertRaw wire)

/-- `normalizeProvisioningCommand` (lines 230-273): modern explicit-`kind`
shapes, legacy single-key shapes, and the raw-payload fallback. -/
def normalizeProvisioningCommandE (wire : JsVal) : Except Unit JsVal :=
  if ¬ truthy wire ∨ typeofStr wire ≠ "object" then .ok (mkUpsertRaw wire)
  else if hasProp wire "kind" then
    match getE wire "kind" with
    | .error e => .error e
    | .ok k =>
      if jsEq k (.str "upsert_model_config") then
        match getE wire "config" with
        | .error e => .error e
        | .ok c => .ok (.obj [("kind", .str "upsert_model_config"), ("config", c)])
      else if jsEq k (.str "load_model") ∨ jsEq k (.str "unload_model") then
        match getE wire "model_id" with
        | .error e => .error e
        | .ok mid => .ok (.obj [("kind", k), ("model_id", normalizeMid mid)])
      else legacyCmd wire
  else legacyCmd wire

/-- The per-model normalization lambda used in `normalizeSnapshot` (lines
291-296) and in the `model_state_changed` branch of `normalizeMessage`
(lines 390-397); throws iff `m` is nullish. -/
def normalizeModelStatusE (m : JsVal) : Except Unit JsVal :=
  if isNullish m then .error ()
  else .ok (.obj
    [("model_id", normalizeModelId (getD m "model_id")),
     ("last_cmd_kind", nc (getD m "last_cmd_kind") (.str "unknown")),
     ("last_response", nc (getD m "last_response") .null),
     ("effective_status", nc (getD m "effective_status") (.str "unknown"))])

/-- Left-to-right effectful map, throwing at the first element that throws,
as `Array.prototype.map` does with a throwing callback. -/
def exMap (f : JsVal → Except Unit JsVal) : List JsVal → Except Unit (List JsVal)
  | [] => .ok []
  | x :: xs =>
    match f x with
    | .error e => .error e
    | .ok y =>
      match exMap f xs with
      | .error e => .error e
      | .ok ys => .ok (y :: ys)

/-- Like `exMap` but passing the element index, for the `(n, idx)` callback
of `normalizeSnapshot`. -/
def exMapIdx (f : Nat → JsVal → Except Unit JsVal) :
    List JsVal → Nat → Except Unit (List JsVal)
  | [], _ => .ok []
  | x :: xs, i =>
    match f i x with
    | .error e => .error e
    | .ok y =>
      match exMapIdx f xs (i + 1) with
      | .error e => .error e
      | .ok ys => .ok (y :: ys)

/-- The per-neuron normalization lambda of `normalizeSnapshot` (lines
281-317): already-structured entries carry a `descriptor`; flat legacy
entries are promoted to a full neuron with health `"unknown"`. -/
def normalizeNeuronE (idx : Nat) (n : JsVal) : Except Unit JsVal :=
  if truthy n ∧ typeofStr n = "object" ∧ hasProp n "descriptor" then
    match
      (if isArrayJs (getD n "models") then
        exMap normalizeModelStatusE (arrElems (getD n "models"))
      else .ok []) with
    | .error e => .error e
    | .ok models =>
      .ok (.obj
        [("descriptor", getD n "descriptor"),
         ("last_heartbeat_at", nc (getD n "last_heartbeat_at") .null),
         ("health", nc (getD n "health") (.str "unknown")),
         ("offline", .bool (truthy (getD n "offline"))),
         ("models", .arr models)])
  else
    let descriptor : JsVal := .obj
      [("node_id", nc (jsAnd n (getD n "node_id")) .null),
       ("label",
        nc (jsAnd n (getD n "label"))
          (nc (jsAnd n (getD n "node_id"))
            (.str ("Neuron #" ++ toString (idx + 1))))),
       ("metadata", nc (jsAnd n (getD n "metadata")) (.obj []))]
    .ok (.obj
      [("descriptor", descriptor),
       ("last_heartbeat_at", .null),
       ("health", .str "unknown"),
       ("offline", .bool false),
       ("models", .arr [])])

/-- `normalizeSnapshot` (lines 279-321); `snapshot.neurons` throws iff
`snapshot` is nullish. -/
def normalizeSnapshotE (snapshot : JsVal) : Except Unit JsVal :=
  match getE snapshot "neurons" with
  | .error e => .error e
  | .ok ns =>
    match exMapIdx normalizeNeuronE (if isArrayJs ns then arrElems ns else []) 0 with
    | .error e => .error e
    | .ok normalized => .ok (.obj [("neurons", .arr normalized)])

/-- Builder for the normalized `{ kind: "event", event: {...} }` envelope. -/
def mkEvent (fs : List (String × JsVal)) : JsVal :=
  .obj [("kind", .str "event"), ("event", .obj fs)]

/-- The `switch (e.type)` of `normalizeMessage` (lines 342-419), reached
once `e` is a truthy object whose `type` is the string `t`. -/
def normalizeEventSwitch (wire e : JsVal) (t : String) : Except Unit JsVal :=
  if t = "neuron_registered" then
    .ok (mkEvent
      [("type", .str "neuron_registered"), ("neuron", getD e "neuron")])
  else if t = "neuron_removed" then
    .ok (mkEvent
      [("type", .str "neuron_removed"),
       ("neuron_id", .str (jsToString (getD e "neuron_id")))])
  else if t = "neuron_heartbeat" then
    .ok (mkEvent
      [("type", .str "neuron_heartbeat"),
       ("neuron_id", .str (jsToString (getD e "neuron_id"))),
       ("metrics", nc (getD e "metrics") (.obj []))])
  else if t = "provisioning_sent" then
    match normalizeProvisioningCommandE (getD e "cmd") with
    | .error err => .error err
    | .ok cmd =>
      .ok (mkEvent
        [("type", .str "provisioning_sent"),
         ("neuron_id", .str (jsToString (getD e "neuron_id"))),
         ("cmd", cmd)])
  else if t = "provisioning_response" then
    .ok (mkEvent
      [("type", .str "provisioning_response"),
       ("neuron_id", .str (jsToString (getD e "neuron_id"))),
       ("response", getD e "response")])
  else if t = "model_state_changed" then
    match
      exMap normalizeModelStatusE
        (if isArrayJs (getD e "models") then arrElems (getD e "models") else []) with
    | .error err => .error err
    | .ok models =>
      .ok (mkEvent
        [("type", .str "model_state_changed"),
         ("neuron_id", .str (jsToString (getD e "neuron_id"))),
         ("models", .arr models)])
  else if t = "cortex_shutdown_notice" then
    .ok (mkEvent
      [("type", .str "cortex_shutdown_notice"),
       ("reason", nc (getD e "reason") .null)])
  else
    .ok wire

/-- `normalizeMessage` (lines 328-420).  `wire.kind` throws iff `wire` is
nullish; messages that are neither snapshots nor recognizable events pass
through unmodified. -/
def normalizeMessageE (wire : JsVal) : Except Unit JsVal :=
  match getE wire "kind" with
  | .error e => .error e
  | .ok k =>
    if jsEq k (.str "snapshot") then
      match normalizeSnapshotE (getD wire "snapshot") with
      | .error e => .error e
      | .ok snap => .ok (.obj [("kind", .str "snapshot"), ("snapshot", snap)])
    else
      let e := getD wire "event"
      if ¬ truthy e ∨ typeofStr e ≠ "object" ∨ typeofStr (getD e "type") ≠ "string" then
        .ok wire
      else
        match getD e "type" with
        | .str t => normalizeEventSwitch wire e t
        | _ => .ok wire

/-! ## Dashboard component state (Dashboard.tsx lines 148-162, 509-533)

React `useState`/`useRef` cells are collected into one record.  The live
socket is identified by a numeric handle; `wsCurrent` holds the handle and
the socket's `readyState` (0 = CONNECTING, 1 = OPEN, 3 = CLOSED). -/

/-- The `ConnectionStatus` union (line 148). -/
inductive ConnStatus where
  | connecting | opened | polling | closed | error
deriving DecidableEq

/-- The `ShutdownState` record (lines 158-162). -/
structure ShutdownState where
  seenShutdownNotice : Bool
  lastReason : JsVal
  lastSeenAt : JsVal

/-- An `EventLogItem` (lines 150-156). -/
structure EventLogItem where
  id : Nat
  receivedAt : String
  kind : JsVal
  eventType : JsVal
  payload : JsVal

/-- The component's complete mutable state: `useState` cells, `useRef` cells
(`wsRef`, `nextEventIdRef`, `pollingTimerRef`), the pending heartbeat-pulse
timers, and the ghost counters `connectCount`/`nextSockId` recording socket
construction. -/
structure DashState where
  connectionStatus : ConnStatus
  lastError : Option String
  snapshot : JsVal
  events : List EventLogItem
  shutdownState : ShutdownState
  isInitialLoading : Bool
  heartbeatAnimIds : List (String × Nat)
  pulseTimers : List (String × Nat)
  nextEventId : Nat
  wsCurrent : Option (Nat × Nat)
  pollingTimer : Bool
  connectCount : Nat
  nextSockId : Nat

/-- Handle of the socket currently stored in `wsRef.current`. -/
def currentId (s : DashState) : Option Nat :=
  s.wsCurrent.map (fun sock => sock.1)

/-- The reset value used by `ws.onopen` and the initial render. -/
def emptyShutdown : ShutdownState :=
  { seenShutdownNotice := false, lastReason := .null, lastSeenAt := .null }

/-- Component state at first render (lines 512-532). -/
def initialDashState : DashState :=
  { connectionStatus := .connecting
    lastError := none
    snapshot := .null
    events := []
    shutdownState := emptyShutdown
    isInitialLoading := true
    heartbeatAnimIds := []
    pulseTimers := []
    nextEventId := 1
    wsCurrent := none
    pollingTimer := false
    connectCount := 0
    nextSockId := 0 }

/-- `clearPollingTimer` (lines 544-549). -/
def clearPollingTimerS (s : DashState) : DashState :=
  { s with pollingTimer := false }

/-- `scheduleReconnectPoll` (lines 551-566): cancel any pending retry timer,
enter the polling state, and schedule a fresh 60-second retry. -/
def scheduleReconnectPoll (s : DashState) : DashState :=
  { s with pollingTimer := true, connectionStatus := .polling }

/-- The error text recorded when the `try` block of `ws.onmessage` throws
(lines 708-714). -/
def parseFailMsg : String := "Failed to parse message from Cortex"

/-- The error text recorded by `ws.onerror` (line 725). -/
def wsErrorMsg : String := "WebSocket error (see browser console for details)"

/-- Appending to the bounded event log: `[...prev, item].slice(-300)`
(line 645). -/
def capAppend (evs : List EventLogItem) (item : EventLogItem) : List EventLogItem :=
  let l := evs ++ [item]
  l.drop (l.length - 300)

/-- The `eventType` field of a log item: `data.kind === "snapshot" ?
"snapshot" : data.event.type` (lines 639-640); `data.event.type` throws when
`data.event` is nullish. -/
def eventTypeOfE (data : JsVal) : Except Unit JsVal :=
  if jsEq (getD data "kind") (.str "snapshot") then .ok (.str "snapshot")
  else getE (getD data "event") "type"

/-- The heartbeat match predicate (lines 663-667): the neuron's descriptor is
truthy and its `node_id` or `label` strictly equals the event's neuron id. -/
def hbMatch (neuronId n : JsVal) : Bool :=
  truthy (getD n "descriptor") &&
    (jsEq (getD (getD n "descriptor") "node_id") neuronId ||
      jsEq (getD (getD n "descriptor") "label") neuronId)

/-- Spread update `{...v, k: value}`: replaces the field in place when
present, appends it otherwise.  (Index-spreading of strings/arrays is not
modelled; the reconciler only ever spreads objects.) -/
def spreadSet (v : JsVal) (k : String) (value : JsVal) : JsVal :=
  match v with
  | .obj fs =>
    if fs.any (fun p => p.1 == k) then
      .obj (fs.map (fun p => if p.1 == k then (k, value) else p))
    else
      .obj (fs ++ [(k, value)])
  | _ => .obj [(k, value)]

/-- The per-neuron update of the heartbeat branch (lines 662-674). -/
def hbApply (neuronId nowIso : JsVal) (n : JsVal) : JsVal :=
  if hbMatch neuronId n then spreadSet n "last_heartbeat_at" nowIso else n

/-- The `setSnapshot` updater of the heartbeat branch (lines 657-677);
returns `prev` untouched when no snapshot is present.  The stored snapshot
always carries a `neurons` array, so the fallthrough (where the source's
`.map` would throw outside this `try` block) is unreachable and keeps the
state unchanged. -/
def heartbeatUpdate (neuronId nowIso prev : JsVal) : JsVal :=
  if !truthy prev then prev
  else
    match getD prev "neurons" with
    | .arr ns => spreadSet prev "neurons" (.arr (ns.map (hbApply neuronId nowIso)))
    | _ => prev

/-- Association-list read of `heartbeatAnimIds[key]`. -/
def pulseLookup (m : List (String × Nat)) (key : String) : Option Nat :=
  (m.find? (fun p => p.1 == key)).map (fun p => p.2)

/-- Association-list write `{ ...prev, [key]: v }`. -/
def pulseSet (m : List (String × Nat)) (key : String) (v : Nat) : List (String × Nat) :=
  if m.any (fun p => p.1 == key) then
    m.map (fun p => if p.1 == key then (key, v) else p)
  else
    m ++ [(key, v)]

/-- Association-list delete `const { [key]: _, ...rest } = current`. -/
def pulseRemove (m : List (String × Nat)) (key : String) : List (String × Nat) :=
  m.filter (fun p => p.1 != key)

/-- The `try` block of `ws.onmessage` (lines 629-714).  `parsed` is the
result of `JSON.parse` (`none` = the frame was not valid JSON).  A throw
anywhere in the block lands in the `catch`, which records `lastError`;
mutations already performed (the `nextEventIdRef` bump) persist. -/
def onmessageBody (parsed : Option JsVal) (rAt nIso : String) (s : DashState) :
    DashState :=
  match parsed with
  | none => { s with lastError := some parseFailMsg }
  | some wire =>
    match normalizeMessageE wire with
    | .error _ => { s with lastError := some parseFailMsg }
    | .ok data =>
      let id := s.nextEventId
      let s1 := { s with nextEventId := id + 1 }
      match eventTypeOfE data with
      | .error _ => { s1 with lastError := some parseFailMsg }
      | .ok etype =>
        let item : EventLogItem :=
          { id := id, receivedAt := rAt, kind := getD data "kind",
            eventType := etype, payload := data }
        let s2 := { s1 with events := capAppend s1.events item }
        if jsEq (getD data "kind") (.str "snapshot") then
          { s2 with snapshot := getD data "snapshot", isInitialLoading := false }
        else
          let e := getD data "event"
          if jsEq (getD e "type") (.str "neuron_heartbeat") then
            let s3 :=
              { s2 with snapshot := heartbeatUpdate (getD e "neuron_id") (.str nIso) s2.snapshot }
            let key := jsToString (getD e "neuron_id")
            let nextPulse := (pulseLookup s3.heartbeatAnimIds key).getD 0 + 1
            { s3 with
              heartbeatAnimIds := pulseSet s3.heartbeatAnimIds key nextPulse,
              pulseTimers := s3.pulseTimers ++ [(key, nextPulse)] }
          else if jsEq (getD e "type") (.str "cortex_shutdown_notice") then
            let s3 :=
              { s2 with shutdownState :=
                { seenShutdownNotice := true,
                  lastReason := nc (getD e "reason") .null,
                  lastSeenAt := .str nIso } }
            scheduleReconnectPoll s3
          else s2

/-- `ws.onopen` (lines 604-621): ignore stale sockets, otherwise cancel the
retry timer and reset table, log, error and shutdown state for the fresh
epoch.  `nextEventIdRef` is untouched. -/
def wsOnopen (h : Nat) (s : DashState) : DashState :=
  if currentId s = some h then
    { s with
      pollingTimer := false
      connectionStatus := .opened
      lastError := none
      isInitialLoading := true
      snapshot := .null
      events := []
      shutdownState := emptyShutdown }
  else s

/-- `ws.onmessage` (lines 623-715): ignore stale sockets, otherwise run the
parse/normalize/dispatch pipeline. -/
def wsOnmessage (h : Nat) (parsed : Option JsVal) (rAt nIso : String)
    (s : DashState) : DashState :=
  if currentId s = some h then onmessageBody parsed rAt nIso s else s

/-- `ws.onerror` (lines 717-726). -/
def wsOnerror (h : Nat) (s : DashState) : DashState :=
  if currentId s = some h then
    { s with
      connectionStatus := .error
      isInitialLoading := false
      lastError := some wsErrorMsg }
  else s

/-- `ws.onclose` (lines 728-747): keep `polling` if a shutdown notice has
already forced it, otherwise mark closed; then schedule the retry poll. -/
def wsOnclose (h : Nat) (s : DashState) : DashState :=
  if currentId s = some h then
    let s1 :=
      { s with
        connectionStatus :=
          if s.connectionStatus = .polling then .polling else .closed,
        isInitialLoading := false }
    scheduleReconnectPoll s1
  else s

/-- Socket construction inside `connect` (lines 594-602): clear the error
when arriving from polling, enter `connecting`, store a fresh socket handle
(readyState CONNECTING) in `wsRef.current`. -/
def mkSocket (s : DashState) : DashState :=
  let s1 := if s.connectionStatus = .polling then { s with lastError := none } else s
  let s2 := { s1 with connectionStatus := .connecting }
  { s2 with
    wsCurrent := some (s2.nextSockId, 0)
    nextSockId := s2.nextSockId + 1
    connectCount := s2.connectCount + 1 }

/-- `connect` (lines 584-765): bail out when a not-yet-closed socket exists,
otherwise construct a new one. -/
def connect (s : DashState) : DashState :=
  match s.wsCurrent with
  | some sock => if sock.2 ≠ 3 then s else mkSocket s
  | none => mkSocket s

/-- The body of the connection `useEffect` (lines 771-774): a connect
attempt is initiated only when the status is `connecting` and no socket
handle is stored. -/
def effectRun (s : DashState) : DashState :=
  if s.connectionStatus = .connecting ∧ s.wsCurrent = none then
    connect { s with isInitialLoading := true }
  else s

/-- One React commit after a callback ran: when `connectionStatus` changed,
the previous effect's cleanup runs (lines 776-781: cancel the pending retry
timer) and the effect body re-runs; otherwise nothing happens.  The effect's
dependencies other than `connectionStatus` (`endpoint` and the two
`useCallback`s) are stable across renders. -/
def reactCycle (prevStatus : ConnStatus) (s : DashState) : DashState :=
  if s.connectionStatus ≠ prevStatus then effectRun (clearPollingTimerS s)
  else s

/-- Mutation of the stored socket's `readyState` by the transport, just
before the corresponding lifecycle callback fires.  Sockets no longer stored
in `wsRef.current` are unreachable and not tracked. -/
def setRS (s : DashState) (h rs : Nat) : DashState :=
  match s.wsCurrent with
  | some sock =>
    if sock.1 = h then { s with wsCurrent := some (sock.1, rs) } else s
  | none => s

/-- Scheduler operations of one browser session: socket lifecycle callbacks
(tagged with the handle their closure captured), the 60-second retry timer
firing, and a 4-second pulse-expiry timer firing. -/
inductive Op where
  | sockOpen (h : Nat)
  | sockMsg (h : Nat) (parsed : Option JsVal) (rAt nIso : String)
  | sockError (h : Nat)
  | sockClose (h : Nat)
  | timerFire
  | pulseFire (key : String) (pid : Nat)

/-- Process one scheduler operation to completion: transport effect, the
callback, then the React commit. -/
def applyOp (s : DashState) : Op → DashState
  | .sockOpen h => reactCycle s.connectionStatus (wsOnopen h (setRS s h 1))
  | .sockMsg h parsed rAt nIso =>
    reactCycle s.connectionStatus (wsOnmessage h parsed rAt nIso s)
  | .sockError h => reactCycle s.connectionStatus (wsOnerror h s)
  | .sockClose h => reactCycle s.connectionStatus (wsOnclose h (setRS s h 3))
  | .timerFire =>
    if s.pollingTimer then
      let s0 := { s with pollingTimer := false }
      let s1 :=
        { s0 with connectionStatus :=
          if s0.connectionStatus = .polling ∨ s0.connectionStatus = .error ∨
              s0.connectionStatus = .closed
          then .connecting else s0.connectionStatus }
      reactCycle s.connectionStatus s1
    else s
  | .pulseFire key pid =>
    let s1 := { s with pulseTimers := s.pulseTimers.erase (key, pid) }
    if pulseLookup s1.heartbeatAnimIds key = some pid then
      { s1 with heartbeatAnimIds := pulseRemove s1.heartbeatAnimIds key }
    else s1

/-- State right after mounting: initial render plus the first effect run
(which initiates the first connect attempt). -/
def mountDash : DashState := effectRun initialDashState

/-- A whole session: fold the scheduler operations over the mounted state. -/
def runOps (s : DashState) (ops : List Op) : DashState :=
  ops.foldl applyOp s

/-! ## Session bookkeeping used by the theorems -/

/-- A frame whose processing reaches the log append: it normalizes without
throwing and its `eventType` expression evaluates without throwing. -/
def Appends (w : JsVal) : Prop :=
  ∃ d t, normalizeMessageE w = .ok d ∧ eventTypeOfE d = .ok t

/-- The log item that processing a frame `w` (received at `rAt`) appends when
the id counter stands at `i`. -/
def logItemOf (w : JsVal) (rAt : String) (i : Nat) : EventLogItem :=
  match normalizeMessageE w with
  | .ok d =>
    { id := i, receivedAt := rAt, kind := getD d "kind",
      eventType := (eventTypeOfE d).toOption.getD .undefined, payload := d }
  | .error _ =>
    { id := i, receivedAt := rAt, kind := .undefined, eventType := .undefined,
      payload := .undefined }

/-- One inbound frame: its parsed JSON and the two wall-clock readings taken
while processing it (`formatTime(new Date())` and `new Date().toISOString()`). -/
structure Frame where
  wire : JsVal
  rAt : String
  nIso : String

/-- The log items a list of frames produces, ids counting up from `i`. -/
def logItems : List Frame → Nat → List EventLogItem
  | [], _ => []
  | f :: rest, i => logItemOf f.wire f.rAt i :: logItems rest (i + 1)

/-- The scheduler operations delivering a list of frames on socket `h`. -/
def msgOps (h : Nat) (fs : List Frame) : List Op :=
  fs.map (fun f => .sockMsg h (some f.wire) f.rAt f.nIso)

/-- An operation consumes a fresh event-log id exactly when it is a message
on the live socket whose frame normalizes without throwing (the counter is
bumped before the `eventType` expression can still throw). -/
def assignsId (s : DashState) : Op → Bool
  | .sockMsg h (some w) _ _ =>
    currentId s == some h && (normalizeMessageE w).isOk
  | _ => false

/-- The event-log ids a session assigns, in order of assignment. -/
def idsAssigned : DashState → List Op → List Nat
  | _, [] => []
  | s, op :: rest =>
    (if assignsId s op then [s.nextEventId] else []) ++
      idsAssigned (applyOp s op) rest

/-- Command shapes the source recognizes explicitly: a truthy object with a
known `kind` tag or one of the three legacy single keys.  Everything else is
"unrecognized". -/
def RecognizedCmd (w : JsVal) : Prop :=
  truthy w = true ∧ typeofStr w = "object" ∧
    ((hasProp w "kind" = true ∧
        (jsEq (getD w "kind") (.str "upsert_model_config") = true ∨
          jsEq (getD w "kind") (.str "load_model") = true ∨
          jsEq (getD w "kind") (.str "unload_model") = true)) ∨
      hasProp w "UpsertModelConfig" = true ∨ hasProp w "LoadModel" = true ∨
      hasProp w "UnloadModel" = true)

instance (w : JsVal) : Decidable (RecognizedCmd w) := by
  unfold RecognizedCmd
  infer_instance

/-! ## Concrete session data used by witnesses and counterexamples -/

/-- State after mounting and a successful handshake on socket 0. -/
def demoOpen : DashState := runOps mountDash [.sockOpen 0]

/-- A normalized neuron with identifier `n1`, label `alpha`, no models. -/
def demoNeuron : JsVal :=
  .obj
    [("descriptor",
      .obj [("node_id", .str "n1"), ("label", .str "alpha"), ("metadata", .obj [])]),
     ("last_heartbeat_at", .null),
     ("health", .str "healthy"),
     ("offline", .bool false),
     ("models", .arr [])]

/-- `demoOpen` with a one-neuron table present. -/
def demoTable : DashState :=
  { demoOpen with snapshot := .obj [("neurons", .arr [demoNeuron])] }

/-- A `model_state_changed` frame for `n1` carrying one model. -/
def mscWire : JsVal :=
  .obj
    [("kind", .str "event"),
     ("event",
      .obj
        [("type", .str "model_state_changed"),
         ("neuron_id", .str "n1"),
         ("models",
          .arr
            [.obj
              [("model_id", .str "gpt-small"),
               ("last_cmd_kind", .str "load_model"),
               ("last_response", .null),
               ("effective_status", .str "loaded")]])])]

/-- The normalized model list carried by `mscWire`. -/
def mscNormModels : JsVal :=
  .arr
    [.obj
      [("model_id", .str "gpt-small"),
       ("last_cmd_kind", .str "load_model"),
       ("last_response", .null),
       ("effective_status", .str "loaded")]]

/-- A frame with an unrecognized top-level `kind` but an event-shaped
payload. -/
def bogusKindWire : JsVal :=
  .obj [("kind", .str "bogus"), ("event", .obj [("type", .str "x")])]

/-- A heartbeat frame for the given neuron id. -/
def hbWire (nid : String) : JsVal :=
  .obj
    [("kind", .str "event"),
     ("event", .obj [("type", .str "neuron_heartbeat"), ("neuron_id", .str nid)])]

/-- A shutdown-notice frame. -/
def shutdownWire : JsVal :=
  .obj
    [("kind", .str "event"),
     ("event",
      .obj [("type", .str "cortex_shutdown_notice"), ("reason", .str "maintenance")])]

/-- A well-formed snapshot frame around the given snapshot payload. -/
def snapWireOf (v : JsVal) : JsVal :=
  .obj [("kind", .str "snapshot"), ("snapshot", v)]

/-- A snapshot payload whose `neurons` field is not an array. -/
def badSnapVal : JsVal := .obj [("neurons", .num 5)]

/-- Session: handshake, shutdown notice, transport close, retry-timer fire.
The close arrives while already polling, so its scheduled retry timer
survives the commit and actually fires. -/
def c2TraceA : List Op :=
  [.sockOpen 0, .sockMsg 0 (some shutdownWire) "t1" "T1", .sockClose 0, .timerFire]

/-- Session: handshake, transport close, then the 60-second mark.  Here the
close changes the status, so the commit's effect cleanup cancels the retry
timer it had just scheduled. -/
def c2TraceB : List Op := [.sockOpen 0, .sockClose 0, .timerFire]

/-! # Theorems -/

/-! ## Basic facts about the JavaScript value model -/

theorem isNullish_eq_false_of_truthy {v : JsVal} (h : truthy v = true) :
    isNullish v = false := by
  cases v <;> simp_all [truthy, isNullish]

theorem truthy_eq_false_of_isNullish {v : JsVal} (h : isNullish v = true) :
    truthy v = false := by
  cases v <;> simp_all [truthy, isNullish]

theorem getE_ok_of_truthy {v : JsVal} (k : String) (h : truthy v = true) :
    getE v k = .ok (getD v k) := by
  simp [getE, isNullish_eq_false_of_truthy h]

theorem isNullish_eq_false_of_getD_str {v : JsVal} {k : String} {t : String}
    (h : getD v k = .str t) : isNullish v = false := by
  cases v <;> simp_all [getD, isNullish]

/-- The `?? b` coalesce is the identity once a non-nullish default has been
applied. -/
theorem nc_idem_of_not_nullish {b : JsVal} (hb : isNullish b = false) (a : JsVal) :
    nc (nc a b) b = nc a b := by
  unfold nc
  by_cases h : isNullish a = true <;> simp_all

/-- The `?? null` coalesce is idempotent. -/
theorem nc_null_idem (a : JsVal) : nc (nc a .null) .null = nc a .null := by
  unfold nc
  by_cases h : isNullish a = true <;> simp_all [isNullish]

/-! ## C8: provisioning-command normalization -/

theorem normalizeModelId_str (s : String) : normalizeModelId (.str s) = .str s := rfl

/-- `JSON.stringify` produces a string except on `undefined` input. -/
theorem jsonStringify_shape (v : JsVal) :
    (jsonStringify v = .undefined ∧ v = .undefined) ∨ ∃ s, jsonStringify v = .str s := by
  cases v
  · exact .inl ⟨rfl, rfl⟩
  all_goals exact .inr ⟨_, rfl⟩

/-- A value of `typeof` `"string"` is a string constructor. -/
theorem typeofStr_string {v : JsVal} (h : typeofStr v = "string") :
    ∃ s, v = .str s := by
  cases v <;> simp_all [typeofStr]

/-- The result of `normalizeModelId` is a string, or `undefined` exactly when
the input was `undefined`. -/
theorem normalizeModelId_shape (id : JsVal) :
    (∃ s, normalizeModelId id = .str s) ∨
      (normalizeModelId id = .undefined ∧ id = .undefined) := by
  unfold normalizeModelId
  by_cases h1 : typeofStr id = "string"
  · obtain ⟨s, rfl⟩ := typeofStr_string h1
    exact .inl ⟨s, by simp [typeofStr]⟩
  · rw [if_neg h1]
    by_cases h2 : truthy id = true ∧ typeofStr id = "object" ∧ hasProp id "0" = true
    · rw [if_pos h2]
      by_cases h3 : typeofStr (getD id "0") = "string"
      · obtain ⟨s, hs⟩ := typeofStr_string h3
        exact .inl ⟨s, by simp [hs, typeofStr]⟩
      · rw [if_neg h3]
        rcases jsonStringify_shape id with ⟨hj, rfl⟩ | ⟨s, hs⟩
        · simp [truthy] at h2
        · exact .inl ⟨s, hs⟩
    · rw [if_neg h2]
      rcases jsonStringify_shape id with ⟨hj, rfl⟩ | ⟨s, hs⟩
      · exact .inr ⟨hj, rfl⟩
      · exact .inl ⟨s, hs⟩

/-- `normalizeModelId` is idempotent. -/
theorem normalizeModelId_idem (id : JsVal) :
    normalizeModelId (normalizeModelId id) = normalizeModelId id := by
  rcases normalizeModelId_shape id with ⟨s, hs⟩ | ⟨h1, _⟩
  · rw [hs]; exact normalizeModelId_str s
  · rw [h1]; rfl

/-- The `typeof mid === "string" ? mid : normalizeModelId(mid)` pattern is a
projection: applying it to its own output changes nothing. -/
theorem normalizeMid_idem (mid : JsVal) :
    normalizeMid (normalizeMid mid) = normalizeMid mid := by
  unfold normalizeMid
  by_cases h : typeofStr mid = "string"
  · simp [h]
  · simp [h]
    rcases normalizeModelId_shape mid with ⟨s, hs⟩ | ⟨h1, h2⟩
    · simp [hs, typeofStr]
    · simp [h1, typeofStr]
      rfl

/-- Unrecognized command shapes reach the raw-payload fallback.  Helper for
the C8 theorem. -/
theorem npc_unrecognized (w : JsVal) (hw : ¬ RecognizedCmd w) :
    normalizeProvisioningCommandE w = .ok (mkUpsertRaw w) := by
  unfold RecognizedCmd at hw
  push_neg at hw
  unfold normalizeProvisioningCommandE legacyCmd
  by_cases h1 : ¬ truthy w = true ∨ typeofStr w ≠ "object"
  · rw [if_pos h1]
  · rw [if_neg h1]
    push_neg at h1
    obtain ⟨htr, hty⟩ := h1
    have hnn : isNullish w = false := isNullish_eq_false_of_truthy htr
    have hrest := hw htr hty
    by_cases hk : hasProp w "kind" = true
    · rw [if_pos hk]
      simp only [getE, hnn, Bool.false_eq_true, if_false]
      have hks := hrest.1 hk
      rw [if_neg hks.1, if_neg (not_or.mpr ⟨hks.2.1, hks.2.2⟩)]
      rw [if_neg hrest.2.1, if_neg hrest.2.2.1, if_neg hrest.2.2.2]
    · rw [if_neg hk]
      rw [if_neg (by simp [hrest.2.1]), if_neg (by simp [hrest.2.2.1]),
        if_neg (by simp [hrest.2.2.2])]

/-- `normalizeProvisioningCommand` never throws.  Helper for the C8
theorem. -/
theorem npc_total (w : JsVal) : ∃ v, normalizeProvisioningCommandE w = .ok v := by
  unfold normalizeProvisioningCommandE legacyCmd
  by_cases h1 : ¬ truthy w = true ∨ typeofStr w ≠ "object"
  · rw [if_pos h1]; exact ⟨_, rfl⟩
  · rw [if_neg h1]
    push_neg at h1
    have hnn : isNullish w = false := isNullish_eq_false_of_truthy h1.1
    simp only [getE, hnn, Bool.false_eq_true, if_false]
    split
    · split
      · exact ⟨_, rfl⟩
      · split
        · exact ⟨_, rfl⟩
        · split
          · exact ⟨_, rfl⟩
          · split
            · exact ⟨_, rfl⟩
            · split
              · exact ⟨_, rfl⟩
              · exact ⟨_, rfl⟩
    · split
      · exact ⟨_, rfl⟩
      · split
        · exact ⟨_, rfl⟩
        · split
          · exact ⟨_, rfl⟩
          · exact ⟨_, rfl⟩

/-- C8: `normalizeProvisioningCommand` maps the legacy single-key command
shape to the explicit-kind shape — in particular `{"LoadModel":"gpt-small"}`
normalizes to `{kind:"load_model", model_id:"gpt-small"}` — every
unrecognized command shape normalizes to an `upsert_model_config` carrying
the raw payload, and the function never throws for any input. -/
theorem provisioningCommand_normalization_spec :
    normalizeProvisioningCommandE (.obj [("LoadModel", .str "gpt-small")]) =
      .ok (.obj [("kind", .str "load_model"), ("model_id", .str "gpt-small")]) ∧
    (∀ w, ¬ RecognizedCmd w →
      normalizeProvisioningCommandE w = .ok (mkUpsertRaw w)) ∧
    (∀ w, ∃ v, normalizeProvisioningCommandE w = .ok v) :=
  ⟨rfl, npc_unrecognized, npc_total⟩

/-- Witness for `provisioningCommand_normalization_spec`: the shape
`{"Reboot": 1}` is unrecognized and normalizes to an upsert carrying the raw
payload. -/
theorem provisioningCommand_normalization_spec_witness :
    ¬ RecognizedCmd (.obj [("Reboot", .num 1)]) ∧
    normalizeProvisioningCommandE (.obj [("Reboot", .num 1)]) =
      .ok (mkUpsertRaw (.obj [("Reboot", .num 1)])) :=
  ⟨by decide,
   provisioningCommand_normalization_spec.2.1 (.obj [("Reboot", .num 1)]) (by decide)⟩

/-! ## C10: snapshots with a non-array `neurons` field -/

/-- C10: a `kind: snapshot` frame whose `neurons` field is not an array
normalizes to an empty neuron list, and applying it replaces the existing
neuron table with the empty table; no failure is signalled (`lastError` and
the connection state are untouched) and no previously held neuron
survives. -/
theorem nonarray_snapshot_resets_table (s : DashState) (h : Nat) (snapVal : JsVal)
    (rAt nIso : String) (hcur : currentId s = some h)
    (hnn : isNullish snapVal = false)
    (hna : isArrayJs (getD snapVal "neurons") = false) :
    normalizeSnapshotE snapVal = .ok (.obj [("neurons", .arr [])]) ∧
    (wsOnmessage h (some (snapWireOf snapVal)) rAt nIso s).snapshot =
      .obj [("neurons", .arr [])] ∧
    (wsOnmessage h (some (snapWireOf snapVal)) rAt nIso s).lastError = s.lastError ∧
    (wsOnmessage h (some (snapWireOf snapVal)) rAt nIso s).connectionStatus =
      s.connectionStatus := by
  have hsnap : normalizeSnapshotE snapVal = .ok (.obj [("neurons", .arr [])]) := by
    unfold normalizeSnapshotE
    simp [getE, hnn, hna, exMapIdx]
  refine ⟨hsnap, ?_, ?_, ?_⟩ <;>
  · simp [wsOnmessage, hcur, onmessageBody, normalizeMessageE, snapWireOf, getE, getD,
      lookupField, isNullish, jsEq, hsnap, eventTypeOfE, capAppend]

/-- Witness for `nonarray_snapshot_resets_table`: the snapshot payload
`{neurons: 5}` empties the one-neuron table of `demoTable`. -/
theorem nonarray_snapshot_resets_table_witness :
    currentId demoTable = some 0 ∧ isNullish badSnapVal = false ∧
    isArrayJs (getD badSnapVal "neurons") = false ∧
    normalizeSnapshotE badSnapVal = .ok (.obj [("neurons", .arr [])]) ∧
    (wsOnmessage 0 (some (snapWireOf badSnapVal)) "t" "T" demoTable).snapshot =
      .obj [("neurons", .arr [])] :=
  ⟨rfl, rfl, rfl,
   (nonarray_snapshot_resets_table demoTable 0 badSnapVal "t" "T" rfl rfl rfl).1,
   (nonarray_snapshot_resets_table demoTable 0 badSnapVal "t" "T" rfl rfl rfl).2.1⟩

/-! ## C7: malformed top-level frames -/

/-- C7 counterexample: the frame `{"kind":"bogus","event":{"type":"x"}}` is
not valid `kind: snapshot` / `kind: event` framing, yet processing it
appends an entry to the event log (and records no error at all), refuting
the claim that such frames only set a local error message and leave the log
unmodified. -/
theorem bogus_kind_frame_is_appended_to_log :
    getD bogusKindWire "kind" = .str "bogus" ∧
    demoOpen.events.length = 0 ∧
    (wsOnmessage 0 (some bogusKindWire) "t" "T" demoOpen).events.length = 1 ∧
    (wsOnmessage 0 (some bogusKindWire) "t" "T" demoOpen).lastError = none :=
  ⟨rfl, rfl, rfl, rfl⟩

/-- C7 (amended): for every inbound frame that is not valid structured data,
or whose parse result is nullish, or that lacks `kind: snapshot` framing and
carries a nullish `event` field, the failure is recorded only as a local
error message: connection state, neuron table, event log, shutdown state and
timers are all unchanged.  (Frames with an unrecognized `kind` but a
non-nullish `event` payload are instead logged — see the counterexample.) -/
theorem malformed_frame_sets_error_only (s : DashState) (h : Nat)
    (parsed : Option JsVal) (rAt nIso : String)
    (hcur : currentId s = some h)
    (hbad : parsed = none ∨
      ∃ w, parsed = some w ∧
        (isNullish w = true ∨
          (jsEq (getD w "kind") (.str "snapshot") = false ∧
            isNullish (getD w "event") = true))) :
    (wsOnmessage h parsed rAt nIso s).connectionStatus = s.connectionStatus ∧
    (wsOnmessage h parsed rAt nIso s).snapshot = s.snapshot ∧
    (wsOnmessage h parsed rAt nIso s).events = s.events ∧
    (wsOnmessage h parsed rAt nIso s).shutdownState = s.shutdownState ∧
    (wsOnmessage h parsed rAt nIso s).pollingTimer = s.pollingTimer ∧
    (wsOnmessage h parsed rAt nIso s).pulseTimers = s.pulseTimers ∧
    (wsOnmessage h parsed rAt nIso s).lastError = some parseFailMsg := by
  rcases hbad with rfl | ⟨w, rfl, hw⟩
  · simp [wsOnmessage, hcur, onmessageBody]
  · rcases hw with hw | ⟨hk, he⟩
    · have : normalizeMessageE w = .error () := by
        unfold normalizeMessageE
        simp [getE, hw]
      simp [wsOnmessage, hcur, onmessageBody, this]
    · by_cases hnw : isNullish w = true
      · have : normalizeMessageE w = .error () := by
          unfold normalizeMessageE
          simp [getE, hnw]
        simp [wsOnmessage, hcur, onmessageBody, this]
      · have hnw' : isNullish w = false := by simpa using hnw
        have hpass : normalizeMessageE w = .ok w := by
          unfold normalizeMessageE
          simp only [getE, hnw', Bool.false_eq_true, if_false]
          rw [if_neg (by simp [hk])]
          rw [if_pos (Or.inl (by simp [truthy_eq_false_of_isNullish he]))]
        have hty : eventTypeOfE w = .error () := by
          unfold eventTypeOfE
          rw [if_neg (by simp [hk])]
          simp [getE, he]
        simp [wsOnmessage, hcur, onmessageBody, hpass, hty]

/-- Witness for `malformed_frame_sets_error_only`: an undecodable frame
(`JSON.parse` threw) on the live socket of `demoOpen` only sets the local
error message. -/
theorem malformed_frame_sets_error_only_witness :
    currentId demoOpen = some 0 ∧
    (wsOnmessage 0 none "t" "T" demoOpen).events = demoOpen.events ∧
    (wsOnmessage 0 none "t" "T" demoOpen).snapshot = demoOpen.snapshot ∧
    (wsOnmessage 0 none "t" "T" demoOpen).connectionStatus =
      demoOpen.connectionStatus ∧
    (wsOnmessage 0 none "t" "T" demoOpen).lastError = some parseFailMsg :=
  ⟨rfl,
   (malformed_frame_sets_error_only demoOpen 0 none "t" "T" rfl (Or.inl rfl)).2.2.1,
   (malformed_frame_sets_error_only demoOpen 0 none "t" "T" rfl (Or.inl rfl)).2.1,
   (malformed_frame_sets_error_only demoOpen 0 none "t" "T" rfl (Or.inl rfl)).1,
   (malformed_frame_sets_error_only demoOpen 0 none "t" "T" rfl (Or.inl rfl)).2.2.2.2.2.2⟩

/-! ## C5: heartbeat reconciliation -/

/-- C5: for every frame that normalizes to a `neuron_heartbeat` event with
neuron id `nid`, processed on the live socket while a neuron table is
present, the table becomes the pointwise image of `hbApply`: every neuron
whose descriptor `node_id` OR `label` strictly equals `nid` has its
`last_heartbeat_at` replaced by the current time, and every other neuron is
unchanged.  Zero or multiple matches all update, and no error is raised
(`lastError` and the connection state are untouched). -/
theorem heartbeat_updates_matching_neurons (s : DashState) (h : Nat)
    (w d : JsVal) (nid rAt nIso : String) (pf : List (String × JsVal))
    (ns : List JsVal)
    (hcur : currentId s = some h)
    (hnorm : normalizeMessageE w = .ok d)
    (hkind : getD d "kind" = .str "event")
    (hty : getD (getD d "event") "type" = .str "neuron_heartbeat")
    (hnid : getD (getD d "event") "neuron_id" = .str nid)
    (hsnap : s.snapshot = .obj pf)
    (hns : lookupField pf "neurons" = some (.arr ns)) :
    (wsOnmessage h (some w) rAt nIso s).snapshot =
      spreadSet s.snapshot "neurons"
        (.arr (ns.map (hbApply (.str nid) (.str nIso)))) ∧
    (wsOnmessage h (some w) rAt nIso s).lastError = s.lastError ∧
    (wsOnmessage h (some w) rAt nIso s).connectionStatus = s.connectionStatus ∧
    (∀ i (hi : i < ns.length),
      (ns.map (hbApply (.str nid) (.str nIso))).get ⟨i, by simpa using hi⟩ =
        if hbMatch (.str nid) (ns.get ⟨i, hi⟩) = true then
          spreadSet (ns.get ⟨i, hi⟩) "last_heartbeat_at" (.str nIso)
        else ns.get ⟨i, hi⟩) := by
  have hev : isNullish (getD d "event") = false := isNullish_eq_false_of_getD_str hty
  have htyE : eventTypeOfE d = .ok (.str "neuron_heartbeat") := by
    unfold eventTypeOfE
    rw [if_neg (by simp [hkind, jsEq])]
    simp [getE, hev, hty]
  have hupd :
      heartbeatUpdate (.str nid) (.str nIso) s.snapshot =
        spreadSet s.snapshot "neurons"
          (.arr (ns.map (hbApply (.str nid) (.str nIso)))) := by
    unfold heartbeatUpdate
    rw [hsnap]
    simp [truthy, getD, hns]
  refine ⟨?_, ?_, ?_, ?_⟩
  · simp [wsOnmessage, hcur, onmessageBody, hnorm, htyE, hkind, jsEq, hty, hnid, hupd]
  · simp [wsOnmessage, hcur, onmessageBody, hnorm, htyE, hkind, jsEq, hty]
  · simp [wsOnmessage, hcur, onmessageBody, hnorm, htyE, hkind, jsEq, hty]
  · intro i hi
    simp [List.get_eq_getElem, hbApply]

/-- Witness for `heartbeat_updates_matching_neurons`: a heartbeat whose
`neuron_id` equals the label `alpha` of `demoTable`'s neuron — whose
`node_id` is `n1`, not `alpha` — still stamps that neuron's
`last_heartbeat_at`. -/
theorem heartbeat_updates_matching_neurons_witness :
    (wsOnmessage 0 (some (hbWire "alpha")) "t" "NOW" demoTable).snapshot =
      .obj
        [("neurons",
          .arr
            [.obj
              [("descriptor",
                .obj
                  [("node_id", .str "n1"), ("label", .str "alpha"),
                   ("metadata", .obj [])]),
               ("last_heartbeat_at", .str "NOW"),
               ("health", .str "healthy"),
               ("offline", .bool false),
               ("models", .arr [])]])] ∧
    (wsOnmessage 0 (some (hbWire "alpha")) "t" "NOW" demoTable).lastError =
      demoTable.lastError :=
  ⟨(heartbeat_updates_matching_neurons demoTable 0 (hbWire "alpha")
      (.obj
        [("kind", .str "event"),
         ("event",
          .obj
            [("type", .str "neuron_heartbeat"), ("neuron_id", .str "alpha"),
             ("metrics", .obj [])])])
      "alpha" "t" "NOW" [("neurons", .arr [demoNeuron])] [demoNeuron]
      rfl rfl rfl rfl rfl rfl rfl).1,
   (heartbeat_updates_matching_neurons demoTable 0 (hbWire "alpha")
      (.obj
        [("kind", .str "event"),
         ("event",
          .obj
            [("type", .str "neuron_heartbeat"), ("neuron_id", .str "alpha"),
             ("metrics", .obj [])])])
      "alpha" "t" "NOW" [("neurons", .arr [demoNeuron])] [demoNeuron]
      rfl rfl rfl rfl rfl rfl rfl).2.1⟩

/-! ## Step lemmas for the session model (C3, C9) -/

/-- The message pipeline never touches the socket handle or the ghost socket
counters, and can only move the connection status to `polling`. -/
theorem onmessageBody_proj (parsed : Option JsVal) (rAt nIso : String)
    (s : DashState) :
    (onmessageBody parsed rAt nIso s).wsCurrent = s.wsCurrent ∧
    ((onmessageBody parsed rAt nIso s).connectionStatus = s.connectionStatus ∨
      (onmessageBody parsed rAt nIso s).connectionStatus = .polling) := by
  unfold onmessageBody scheduleReconnectPoll
  rcases parsed with _ | w
  · simp
  · rcases hn : normalizeMessageE w with e | d
    · simp only [hn]
      simp
    · simp only [hn]
      rcases ht : eventTypeOfE d with e | t
      · simp only [ht]
        simp
      · simp only [ht]
        split_ifs <;> simp

/-- An unparseable frame leaves the counter alone. -/
theorem onmessageBody_counter_none (rAt nIso : String) (s : DashState) :
    (onmessageBody none rAt nIso s).nextEventId = s.nextEventId := rfl

/-- A frame whose normalization throws leaves the counter alone (the throw
happens before `nextEventIdRef.current++`). -/
theorem onmessageBody_counter_err (w : JsVal) (rAt nIso : String)
    (s : DashState) (hw : normalizeMessageE w = .error ()) :
    (onmessageBody (some w) rAt nIso s).nextEventId = s.nextEventId := by
  unfold onmessageBody
  simp only [hw]

/-- A frame that normalizes bumps the counter by one, whether or not the
`eventType` expression then throws. -/
theorem onmessageBody_counter_ok (w d : JsVal) (rAt nIso : String)
    (s : DashState) (hw : normalizeMessageE w = .ok d) :
    (onmessageBody (some w) rAt nIso s).nextEventId = s.nextEventId + 1 := by
  unfold onmessageBody scheduleReconnectPoll
  simp only [hw]
  rcases ht : eventTypeOfE d with e | t
  · simp only [ht]
  · simp only [ht]
    split_ifs <;> simp

/-- Log behaviour of the message pipeline on a frame that appends: exactly
the item `logItemOf` describes, at the current counter value. -/
theorem onmessageBody_events_ok (w d t : JsVal) (rAt nIso : String)
    (s : DashState) (hw : normalizeMessageE w = .ok d)
    (ht : eventTypeOfE d = .ok t) :
    (onmessageBody (some w) rAt nIso s).events =
      capAppend s.events (logItemOf w rAt s.nextEventId) := by
  unfold onmessageBody scheduleReconnectPoll logItemOf
  simp only [hw, ht, Except.toOption, Option.getD_some]
  split_ifs <;> simp

/-- A React commit that can only have moved the status to `polling` preserves
the log, the counter and the socket handle. -/
theorem reactCycle_preserv (p : ConnStatus) (s : DashState)
    (hst : s.connectionStatus = p ∨ s.connectionStatus = .polling) :
    (reactCycle p s).events = s.events ∧
    (reactCycle p s).nextEventId = s.nextEventId ∧
    (reactCycle p s).wsCurrent = s.wsCurrent := by
  unfold reactCycle effectRun clearPollingTimerS
  by_cases hc : s.connectionStatus ≠ p
  · rw [if_pos hc]
    rcases hst with h | h
    · exact absurd h hc
    · simp [h]
  · rw [if_neg hc]
    exact ⟨rfl, rfl, rfl⟩

/-- Any React commit preserves the event-id counter and the log (the effect
only ever touches the timer, the status, `lastError`, `isInitialLoading` and
the socket fields). -/
theorem reactCycle_counter_events (p : ConnStatus) (s : DashState) :
    (reactCycle p s).nextEventId = s.nextEventId ∧
    (reactCycle p s).events = s.events := by
  unfold reactCycle effectRun connect mkSocket clearPollingTimerS
  split_ifs
  all_goals try exact ⟨rfl, rfl⟩
  all_goals
    rcases s.wsCurrent with _ | sock
    · simp
    · simp
      split_ifs <;> simp

/-- Field behaviour of a delivered frame on the live socket. -/
theorem applyOp_msg_good (s : DashState) (h : Nat) (f : Frame) (d t : JsVal)
    (hcur : currentId s = some h)
    (hw : normalizeMessageE f.wire = .ok d) (ht : eventTypeOfE d = .ok t) :
    (applyOp s (.sockMsg h (some f.wire) f.rAt f.nIso)).events =
      capAppend s.events (logItemOf f.wire f.rAt s.nextEventId) ∧
    (applyOp s (.sockMsg h (some f.wire) f.rAt f.nIso)).nextEventId =
      s.nextEventId + 1 ∧
    currentId (applyOp s (.sockMsg h (some f.wire) f.rAt f.nIso)) = some h := by
  have key : applyOp s (.sockMsg h (some f.wire) f.rAt f.nIso) =
      reactCycle s.connectionStatus (onmessageBody (some f.wire) f.rAt f.nIso s) := by
    unfold applyOp wsOnmessage
    simp [hcur]
  rw [key]
  have hproj := onmessageBody_proj (some f.wire) f.rAt f.nIso s
  have hpres := reactCycle_preserv s.connectionStatus
    (onmessageBody (some f.wire) f.rAt f.nIso s) hproj.2
  refine ⟨?_, ?_, ?_⟩
  · rw [hpres.1, onmessageBody_events_ok f.wire d t f.rAt f.nIso s hw ht]
  · rw [hpres.2.1, onmessageBody_counter_ok f.wire d f.rAt f.nIso s hw]
  · unfold currentId
    rw [hpres.2.2, hproj.1]
    exact hcur

/-- Appending to an already-capped log is the same as capping the uncapped
history: the log is always the 300-suffix of everything ever appended. -/
theorem capAppend_drop (l : List EventLogItem) (x : EventLogItem) :
    capAppend (l.drop (l.length - 300)) x =
      (l ++ [x]).drop ((l ++ [x]).length - 300) := by
  unfold capAppend
  have hle : l.length - 300 ≤ l.length := Nat.sub_le _ _
  rw [← List.drop_append_of_le_length hle, List.drop_drop]
  congr 1
  simp [List.length_drop]
  omega

/-- `logItems` produces one item per frame. -/
theorem logItems_length (fs : List Frame) : ∀ i, (logItems fs i).length = fs.length := by
  induction fs with
  | nil => intro i; rfl
  | cons f rest ih => intro i; simp [logItems, ih]

/-- The ids of `logItems` are consecutive from the starting counter. -/
theorem logItems_ids (fs : List Frame) :
    ∀ i, (logItems fs i).map (fun it => it.id) = List.range' i fs.length := by
  induction fs with
  | nil => intro i; rfl
  | cons f rest ih =>
    intro i
    have hid : (logItemOf f.wire f.rAt i).id = i := by
      unfold logItemOf
      rcases hn : normalizeMessageE f.wire with e | d <;> simp [hn]
    simp [logItems, List.range'_succ, hid, ih]

/-- Folding a list of good frames over the live socket: the log is the
300-suffix of the accumulated history and the counter advances by one per
frame. -/
theorem runMsgs_events_general (frames : List Frame) :
    ∀ (s : DashState) (h : Nat) (acc : List EventLogItem),
      currentId s = some h →
      (∀ f ∈ frames, Appends f.wire) →
      s.events = acc.drop (acc.length - 300) →
      (runOps s (msgOps h frames)).events =
        (acc ++ logItems frames s.nextEventId).drop
          ((acc ++ logItems frames s.nextEventId).length - 300) ∧
      (runOps s (msgOps h frames)).nextEventId = s.nextEventId + frames.length := by
  induction frames with
  | nil =>
    intro s h acc hcur hgood hacc
    simpa [runOps, msgOps, logItems] using hacc
  | cons f rest ih =>
    intro s h acc hcur hgood hacc
    obtain ⟨d, t, hd, ht⟩ := hgood f (List.mem_cons_self f rest)
    have step := applyOp_msg_good s h f d t hcur hd ht
    have hstepev :
        (applyOp s (.sockMsg h (some f.wire) f.rAt f.nIso)).events =
          (acc ++ [logItemOf f.wire f.rAt s.nextEventId]).drop
            ((acc ++ [logItemOf f.wire f.rAt s.nextEventId]).length - 300) := by
      rw [step.1, hacc, capAppend_drop]
    have hrest : ∀ g ∈ rest, Appends g.wire := fun g hg =>
      hgood g (List.mem_cons_of_mem f hg)
    have hmain := ih (applyOp s (.sockMsg h (some f.wire) f.rAt f.nIso)) h
      (acc ++ [logItemOf f.wire f.rAt s.nextEventId]) step.2.2 hrest hstepev
    rw [step.2.1] at hmain
    have hassoc :
        (acc ++ [logItemOf f.wire f.rAt s.nextEventId]) ++
            logItems rest (s.nextEventId + 1) =
          acc ++ logItems (f :: rest) s.nextEventId := by
      simp [logItems]
    constructor
    · have h1 := hmain.1
      rw [hassoc] at h1
      simpa [runOps, msgOps] using h1
    · have h2 := hmain.2
      simp only [runOps, msgOps] at h2 ⊢
      simp [h2, List.length_cons]
      omega

/-- C3: delivering `N` frames that each append (starting from an empty log)
leaves the log equal to the most recent 300 of the `N` items, in original
arrival order; exactly one item is logged per processed frame; the assigned
ids are consecutive, hence strictly increasing; the log never exceeds 300
entries, and holds exactly 300 once `N > 300`. -/
theorem bounded_event_log (s : DashState) (h : Nat) (frames : List Frame)
    (hcur : currentId s = some h) (hempty : s.events = [])
    (hgood : ∀ f ∈ frames, Appends f.wire) :
    (runOps s (msgOps h frames)).events =
      (logItems frames s.nextEventId).drop (frames.length - 300) ∧
    (logItems frames s.nextEventId).length = frames.length ∧
    (logItems frames s.nextEventId).map (fun it => it.id) =
      List.range' s.nextEventId frames.length ∧
    (runOps s (msgOps h frames)).events.length = min frames.length 300 ∧
    (300 < frames.length → (runOps s (msgOps h frames)).events.length = 300) ∧
    List.Pairwise (· < ·)
      ((runOps s (msgOps h frames)).events.map (fun it => it.id)) := by
  have hgen := runMsgs_events_general frames s h [] hcur hgood (by simpa using hempty)
  have hlen := logItems_length frames s.nextEventId
  have hids := logItems_ids frames s.nextEventId
  have hev : (runOps s (msgOps h frames)).events =
      (logItems frames s.nextEventId).drop (frames.length - 300) := by
    have h1 := hgen.1
    simpa [hlen] using h1
  refine ⟨hev, hlen, hids, ?_, ?_, ?_⟩
  · rw [hev]
    simp [List.length_drop, hlen]
    omega
  · intro hN
    rw [hev]
    simp [List.length_drop, hlen]
    omega
  · rw [hev, List.map_drop, hids]
    exact (List.pairwise_lt_range' _ _).sublist (List.drop_sublist _ _)

/-- Witness for `bounded_event_log`: 301 heartbeat frames on the live socket
of `demoOpen` leave exactly 300 log entries. -/
theorem bounded_event_log_witness :
    (∀ f ∈ List.replicate 301 (Frame.mk (hbWire "n1") "t" "T"), Appends f.wire) ∧
    (runOps demoOpen
        (msgOps 0 (List.replicate 301 (Frame.mk (hbWire "n1") "t" "T")))).events.length =
      300 := by
  have hgood :
      ∀ f ∈ List.replicate 301 (Frame.mk (hbWire "n1") "t" "T"), Appends f.wire := by
    intro f hf
    rw [List.eq_of_mem_replicate hf]
    exact ⟨_, _, rfl, rfl⟩
  exact ⟨hgood,
    (bounded_event_log demoOpen 0 _ rfl rfl hgood).2.2.2.2.1 (by norm_num)⟩

/-! ## C9: id assignment across connection epochs -/

/-- Transport `readyState` updates never touch the event-id counter. -/
theorem setRS_nextEventId (s : DashState) (h rs : Nat) :
    (setRS s h rs).nextEventId = s.nextEventId := by
  unfold setRS
  rcases s.wsCurrent with _ | sock
  · rfl
  · simp only
    split_ifs <;> rfl

/-- The event-id counter after any scheduler operation: bumped by exactly one
when the operation consumed an id, untouched otherwise — no operation ever
resets or decreases it. -/
theorem applyOp_counter (s : DashState) (op : Op) :
    (applyOp s op).nextEventId =
      if assignsId s op then s.nextEventId + 1 else s.nextEventId := by
  cases op with
  | sockOpen h =>
    simp only [applyOp, assignsId, Bool.false_eq_true, if_false]
    rw [(reactCycle_counter_events _ _).1]
    unfold wsOnopen
    split_ifs
    · simp [setRS_nextEventId]
    · exact setRS_nextEventId s h 1
  | sockMsg h parsed rAt nIso =>
    rcases parsed with _ | w
    · simp only [applyOp, assignsId, Bool.false_eq_true, if_false]
      rw [(reactCycle_counter_events _ _).1]
      unfold wsOnmessage
      split_ifs <;> rfl
    · simp only [applyOp]
      rw [(reactCycle_counter_events _ _).1]
      unfold wsOnmessage
      by_cases hcur : currentId s = some h
      · rw [if_pos hcur]
        rcases hn : normalizeMessageE w with e | d
        · rw [onmessageBody_counter_err w rAt nIso s hn]
          simp [assignsId, hn, Except.isOk, Except.toBool]
        · rw [onmessageBody_counter_ok w d rAt nIso s hn]
          simp [assignsId, hn, Except.isOk, Except.toBool, hcur]
      · rw [if_neg hcur]
        simp [assignsId, Bool.and_eq_true, beq_iff_eq, hcur]
  | sockError h =>
    simp only [applyOp, assignsId, Bool.false_eq_true, if_false]
    rw [(reactCycle_counter_events _ _).1]
    unfold wsOnerror
    split_ifs <;> rfl
  | sockClose h =>
    simp only [applyOp, assignsId, Bool.false_eq_true, if_false]
    rw [(reactCycle_counter_events _ _).1]
    unfold wsOnclose scheduleReconnectPoll
    split_ifs
    all_goals simp [setRS_nextEventId]
  | timerFire =>
    simp only [applyOp, assignsId, Bool.false_eq_true, if_false]
    split_ifs
    · rw [(reactCycle_counter_events _ _).1]
    · rw [(reactCycle_counter_events _ _).1]
    · rfl
  | pulseFire key pid =>
    simp only [applyOp, assignsId, Bool.false_eq_true, if_false]
    split_ifs <;> rfl

/-- Every id a session assigns from state `s` onward is at least the current
counter value. -/
theorem idsAssigned_lower (ops : List Op) :
    ∀ (s : DashState) (x : Nat), x ∈ idsAssigned s ops → s.nextEventId ≤ x := by
  induction ops with
  | nil => intro s x hx; simp [idsAssigned] at hx
  | cons op rest ih =>
    intro s x hx
    unfold idsAssigned at hx
    rcases List.mem_append.mp hx with h1 | h2
    · split_ifs at h1 <;> simp at h1
      omega
    · have hle := ih (applyOp s op) x h2
      have hc := applyOp_counter s op
      split_ifs at hc <;> omega

/-- Ids are assigned in strictly increasing order throughout a session,
whatever operations (including fresh connections) occur. -/
theorem idsAssigned_pairwise (ops : List Op) :
    ∀ s : DashState, List.Pairwise (· < ·) (idsAssigned s ops) := by
  induction ops with
  | nil => intro s; simp [idsAssigned]
  | cons op rest ih =>
    intro s
    unfold idsAssigned
    by_cases ha : assignsId s op = true
    · simp only [ha, if_true, List.singleton_append]
      refine List.pairwise_cons.mpr ⟨?_, ih _⟩
      intro y hy
      have h1 := idsAssigned_lower rest (applyOp s op) y hy
      have h2 := applyOp_counter s op
      rw [if_pos ha] at h2
      omega
    · simp only [ha, if_false, List.nil_append]
      exact ih _

/-- C9: event-log sequence ids are never reused across connection epochs.
A successful handshake (`ws.onopen` on the live socket) empties the event
log but leaves `nextEventIdRef` untouched, and over any whole session the
assigned ids are strictly increasing, so every id assigned after the reset
exceeds every id assigned before it. -/
theorem event_ids_never_reused :
    (∀ (s : DashState) (ops : List Op),
      List.Pairwise (· < ·) (idsAssigned s ops)) ∧
    (∀ (s : DashState) (h : Nat), currentId s = some h →
      (wsOnopen h s).events = [] ∧ (wsOnopen h s).nextEventId = s.nextEventId) := by
  constructor
  · intro s ops
    exact idsAssigned_pairwise ops s
  · intro s h hcur
    unfold wsOnopen
    rw [if_pos hcur]
    exact ⟨rfl, rfl⟩

/-- Witness for `event_ids_never_reused`: a session that processes a frame,
reopens (emptying the log), and processes another frame assigns strictly
increasing ids; the reopen on the live socket of `demoTable` empties the log
and keeps the counter. -/
theorem event_ids_never_reused_witness :
    List.Pairwise (· < ·)
      (idsAssigned mountDash
        [.sockOpen 0, .sockMsg 0 (some (hbWire "n1")) "t" "T", .sockOpen 0,
          .sockMsg 0 (some (hbWire "n2")) "t2" "T2"]) ∧
    (wsOnopen 0 demoTable).events = [] ∧
    (wsOnopen 0 demoTable).nextEventId = demoTable.nextEventId :=
  ⟨event_ids_never_reused.1 mountDash _,
   (event_ids_never_reused.2 demoTable 0 rfl).1,
   (event_ids_never_reused.2 demoTable 0 rfl).2⟩

/-! ## C6: idempotence of normalization -/

theorem nc_str_idem (u : String) (a : JsVal) :
    nc (nc a (.str u)) (.str u) = nc a (.str u) :=
  nc_idem_of_not_nullish (show isNullish (JsVal.str u) = false from rfl) a

theorem nc_obj_idem (fs : List (String × JsVal)) (a : JsVal) :
    nc (nc a (.obj fs)) (.obj fs) = nc a (.obj fs) :=
  nc_idem_of_not_nullish (show isNullish (JsVal.obj fs) = false from rfl) a

/-- Normalizing an already-normalized per-model record is the identity. -/
theorem normalizeModelStatusE_idem {m m' : JsVal}
    (hm : normalizeModelStatusE m = .ok m') :
    normalizeModelStatusE m' = .ok m' := by
  unfold normalizeModelStatusE at hm ⊢
  by_cases hn : isNullish m = true
  · rw [if_pos hn] at hm
    exact absurd hm (by simp)
  · rw [if_neg hn] at hm
    have hm' := (Except.ok.injEq _ _).mp hm
    subst hm'
    rw [if_neg (by simp [isNullish])]
    simp [getD, lookupField, normalizeModelId_idem, nc_str_idem, nc_null_idem]

/-- Every element of a successful `exMap` run is an output of the mapped
function. -/
theorem exMap_ok_mem {f : JsVal → Except Unit JsVal} :
    ∀ {xs ys : List JsVal}, exMap f xs = .ok ys →
      ∀ y ∈ ys, ∃ x, f x = .ok y := by
  intro xs
  induction xs with
  | nil =>
    intro ys h y hy
    unfold exMap at h
    cases (Except.ok.injEq _ _).mp h
    simp at hy
  | cons x rest ih =>
    intro ys h y hy
    unfold exMap at h
    rcases hf : f x with e | z
    · rw [hf] at h; cases h
    · rw [hf] at h
      rcases hr : exMap f rest with e | zs
      · rw [hr] at h; cases h
      · rw [hr] at h
        cases (Except.ok.injEq _ _).mp h
        rcases List.mem_cons.mp hy with rfl | hy2
        · exact ⟨x, hf⟩
        · exact ih hr y hy2

/-- Mapping a function that fixes every element succeeds and is the
identity. -/
theorem exMap_fixed {f : JsVal → Except Unit JsVal} :
    ∀ {ys : List JsVal}, (∀ y ∈ ys, f y = .ok y) → exMap f ys = .ok ys := by
  intro ys
  induction ys with
  | nil => intro _; rfl
  | cons y rest ih =>
    intro h
    unfold exMap
    rw [h y (List.mem_cons_self y rest), ih (fun z hz => h z (List.mem_cons_of_mem y hz))]

/-- Every element of a successful `exMapIdx` run is an output of the mapped
function at some index. -/
theorem exMapIdx_ok_mem {f : Nat → JsVal → Except Unit JsVal} :
    ∀ {xs : List JsVal} {i : Nat} {ys : List JsVal}, exMapIdx f xs i = .ok ys →
      ∀ y ∈ ys, ∃ j x, f j x = .ok y := by
  intro xs
  induction xs with
  | nil =>
    intro i ys h y hy
    unfold exMapIdx at h
    cases (Except.ok.injEq _ _).mp h
    simp at hy
  | cons x rest ih =>
    intro i ys h y hy
    unfold exMapIdx at h
    rcases hf : f i x with e | z
    · rw [hf] at h; cases h
    · rw [hf] at h
      rcases hr : exMapIdx f rest (i + 1) with e | zs
      · rw [hr] at h; cases h
      · rw [hr] at h
        cases (Except.ok.injEq _ _).mp h
        rcases List.mem_cons.mp hy with rfl | hy2
        · exact ⟨i, x, hf⟩
        · exact ih hr y hy2

/-- Indexed mapping of a function that fixes every element at every index. -/
theorem exMapIdx_fixed {f : Nat → JsVal → Except Unit JsVal} :
    ∀ {ys : List JsVal} {i : Nat}, (∀ y ∈ ys, ∀ j, f j y = .ok y) →
      exMapIdx f ys i = .ok ys := by
  intro ys
  induction ys with
  | nil => intro i _; rfl
  | cons y rest ih =>
    intro i h
    unfold exMapIdx
    rw [h y (List.mem_cons_self y rest) i,
      ih (fun z hz => h z (List.mem_cons_of_mem y hz))]

/-- Re-normalizing a neuron of the already-structured shape changes
nothing. -/
theorem normalizeNeuronE_on_normalized (idx : Nat) (D lhb hl : JsVal) (ob : Bool)
    (models : List JsVal) (hfix : ∀ y ∈ models, normalizeModelStatusE y = .ok y) :
    normalizeNeuronE idx
      (.obj [("descriptor", D), ("last_heartbeat_at", nc lhb .null),
             ("health", nc hl (.str "unknown")), ("offline", .bool ob),
             ("models", .arr models)]) =
      .ok (.obj [("descriptor", D), ("last_heartbeat_at", nc lhb .null),
             ("health", nc hl (.str "unknown")), ("offline", .bool ob),
             ("models", .arr models)]) := by
  have hred : normalizeNeuronE idx
      (.obj [("descriptor", D), ("last_heartbeat_at", nc lhb .null),
             ("health", nc hl (.str "unknown")), ("offline", .bool ob),
             ("models", .arr models)]) =
      (match exMap normalizeModelStatusE models with
        | .error e => .error e
        | .ok ms => .ok (.obj
            [("descriptor", D),
             ("last_heartbeat_at", nc (nc lhb .null) .null),
             ("health", nc (nc hl (.str "unknown")) (.str "unknown")),
             ("offline", .bool ob),
             ("models", .arr ms)])) := rfl
  rw [hred, exMap_fixed hfix]
  rw [nc_null_idem, nc_str_idem]

/-- Normalizing an already-normalized neuron is the identity, at any
index. -/
theorem normalizeNeuronE_idem {idx : Nat} {n n' : JsVal}
    (h : normalizeNeuronE idx n = .ok n') (idx' : Nat) :
    normalizeNeuronE idx' n' = .ok n' := by
  unfold normalizeNeuronE at h
  by_cases hg : truthy n = true ∧ typeofStr n = "object" ∧ hasProp n "descriptor" = true
  · rw [if_pos hg] at h
    by_cases ha : isArrayJs (getD n "models") = true
    · rw [if_pos ha] at h
      rcases hm : exMap normalizeModelStatusE (arrElems (getD n "models")) with e | models
      · rw [hm] at h; cases h
      · rw [hm] at h
        cases (Except.ok.injEq _ _).mp h
        have hfix : ∀ y ∈ models, normalizeModelStatusE y = .ok y := fun y hy =>
          (exMap_ok_mem hm y hy).elim (fun x hx => normalizeModelStatusE_idem hx)
        exact normalizeNeuronE_on_normalized idx' (getD n "descriptor")
          (getD n "last_heartbeat_at") (getD n "health")
          (truthy (getD n "offline")) models hfix
    · rw [if_neg ha] at h
      cases (Except.ok.injEq _ _).mp h
      exact normalizeNeuronE_on_normalized idx' (getD n "descriptor")
        (getD n "last_heartbeat_at") (getD n "health")
        (truthy (getD n "offline")) [] (by intro y hy; simp at hy)
  · rw [if_neg hg] at h
    cases (Except.ok.injEq _ _).mp h
    rfl

/-- Normalizing an already-normalized snapshot is the identity. -/
theorem normalizeSnapshotE_idem {sv sv' : JsVal}
    (h : normalizeSnapshotE sv = .ok sv') :
    normalizeSnapshotE sv' = .ok sv' := by
  unfold normalizeSnapshotE at h
  rcases hg : getE sv "neurons" with err | ns
  · rw [hg] at h; cases h
  · simp only [hg] at h
    rcases hm : exMapIdx normalizeNeuronE
        (if isArrayJs ns = true then arrElems ns else []) 0 with err | normalized
    · rw [hm] at h; cases h
    · rw [hm] at h
      cases (Except.ok.injEq _ _).mp h
      have hfix : ∀ y ∈ normalized, ∀ j, normalizeNeuronE j y = .ok y := by
        intro y hy j
        obtain ⟨i, x, hx⟩ := exMapIdx_ok_mem hm y hy
        exact normalizeNeuronE_idem hx j
      have hred : normalizeSnapshotE (JsVal.obj [("neurons", .arr normalized)]) =
          (match exMapIdx normalizeNeuronE normalized 0 with
            | .error e => .error e
            | .ok ns2 => .ok (.obj [("neurons", .arr ns2)])) := rfl
      rw [hred, exMapIdx_fixed hfix]

/-- A `jsEq` comparison against a string literal pins the value down. -/
theorem jsEq_str_iff (a : JsVal) (t : String) :
    jsEq a (.str t) = true ↔ a = .str t := by
  cases a <;> simp [jsEq]

/-- Outputs of the legacy single-key command path re-normalize to
themselves. -/
theorem legacyCmd_out_idem {c c' : JsVal} (h : legacyCmd c = .ok c') :
    normalizeProvisioningCommandE c' = .ok c' := by
  unfold legacyCmd at h
  by_cases h1 : hasProp c "UpsertModelConfig" = true
  · rw [if_pos h1] at h
    rcases hc : getE c "UpsertModelConfig" with err | v
    · rw [hc] at h; cases h
    · rw [hc] at h
      cases (Except.ok.injEq _ _).mp h
      rfl
  · rw [if_neg h1] at h
    by_cases h2 : hasProp c "LoadModel" = true
    · rw [if_pos h2] at h
      rcases hc : getE c "LoadModel" with err | mid
      · rw [hc] at h; cases h
      · rw [hc] at h
        cases (Except.ok.injEq _ _).mp h
        have hred : normalizeProvisioningCommandE
            (JsVal.obj [("kind", .str "load_model"), ("model_id", normalizeMid mid)]) =
            .ok (JsVal.obj
              [("kind", .str "load_model"),
               ("model_id", normalizeMid (normalizeMid mid))]) := rfl
        rw [hred, normalizeMid_idem]
    · rw [if_neg h2] at h
      by_cases h3 : hasProp c "UnloadModel" = true
      · rw [if_pos h3] at h
        rcases hc : getE c "UnloadModel" with err | mid
        · rw [hc] at h; cases h
        · rw [hc] at h
          cases (Except.ok.injEq _ _).mp h
          have hred : normalizeProvisioningCommandE
              (JsVal.obj [("kind", .str "unload_model"), ("model_id", normalizeMid mid)]) =
              .ok (JsVal.obj
                [("kind", .str "unload_model"),
                 ("model_id", normalizeMid (normalizeMid mid))]) := rfl
          rw [hred, normalizeMid_idem]
      · rw [if_neg h3] at h
        cases (Except.ok.injEq _ _).mp h
        rfl

/-- Normalizing an already-normalized provisioning command is the
identity. -/
theorem normalizeProvisioningCommandE_idem {c c' : JsVal}
    (h : normalizeProvisioningCommandE c = .ok c') :
    normalizeProvisioningCommandE c' = .ok c' := by
  unfold normalizeProvisioningCommandE at h
  by_cases h1 : ¬ truthy c = true ∨ typeofStr c ≠ "object"
  · rw [if_pos h1] at h
    cases (Except.ok.injEq _ _).mp h
    rfl
  · rw [if_neg h1] at h
    by_cases hk : hasProp c "kind" = true
    · rw [if_pos hk] at h
      rcases hke : getE c "kind" with err | k
      · rw [hke] at h; cases h
      · simp only [hke] at h
        by_cases hu : jsEq k (.str "upsert_model_config") = true
        · rw [if_pos hu] at h
          rcases hc : getE c "config" with err | cv
          · rw [hc] at h; cases h
          · rw [hc] at h
            cases (Except.ok.injEq _ _).mp h
            rfl
        · rw [if_neg hu] at h
          by_cases hl : jsEq k (.str "load_model") = true ∨
              jsEq k (.str "unload_model") = true
          · rw [if_pos hl] at h
            rcases hm : getE c "model_id" with err | mid
            · rw [hm] at h; cases h
            · rw [hm] at h
              cases (Except.ok.injEq _ _).mp h
              rcases hl with hl | hl
              · obtain rfl := (jsEq_str_iff k _).mp hl
                have hred : normalizeProvisioningCommandE
                    (JsVal.obj
                      [("kind", .str "load_model"), ("model_id", normalizeMid mid)]) =
                    .ok (JsVal.obj
                      [("kind", .str "load_model"),
                       ("model_id", normalizeMid (normalizeMid mid))]) := rfl
                rw [hred, normalizeMid_idem]
              · obtain rfl := (jsEq_str_iff k _).mp hl
                have hred : normalizeProvisioningCommandE
                    (JsVal.obj
                      [("kind", .str "unload_model"), ("model_id", normalizeMid mid)]) =
                    .ok (JsVal.obj
                      [("kind", .str "unload_model"),
                       ("model_id", normalizeMid (normalizeMid mid))]) := rfl
                rw [hred, normalizeMid_idem]
          · rw [if_neg hl] at h
            exact legacyCmd_out_idem h
    · rw [if_neg hk] at h
      exact legacyCmd_out_idem h

/-- Normalizing an already-normalized message is the identity. -/
theorem normalizeMessageE_idem {w v : JsVal} (h : normalizeMessageE w = .ok v) :
    normalizeMessageE v = .ok v := by
  unfold normalizeMessageE at h
  rcases hke : getE w "kind" with err | k
  · rw [hke] at h; cases h
  · simp only [hke] at h
    by_cases hs : jsEq k (.str "snapshot") = true
    · rw [if_pos hs] at h
      rcases hsn : normalizeSnapshotE (getD w "snapshot") with err | snap
      · rw [hsn] at h; cases h
      · rw [hsn] at h
        cases (Except.ok.injEq _ _).mp h
        have hred : normalizeMessageE
            (JsVal.obj [("kind", .str "snapshot"), ("snapshot", snap)]) =
            (match normalizeSnapshotE snap with
              | .error e => .error e
              | .ok s2 => .ok (.obj [("kind", .str "snapshot"), ("snapshot", s2)])) := rfl
        rw [hred, normalizeSnapshotE_idem hsn]
    · rw [if_neg hs] at h
      by_cases hg : ¬ truthy (getD w "event") = true ∨
          typeofStr (getD w "event") ≠ "object" ∨
          typeofStr (getD (getD w "event") "type") ≠ "string"
      · rw [if_pos hg] at h
        cases (Except.ok.injEq _ _).mp h
        unfold normalizeMessageE
        simp only [hke]
        rw [if_neg hs, if_pos hg]
      · rw [if_neg hg] at h
        have hg' := hg
        push_neg at hg'
        obtain ⟨t, ht⟩ := typeofStr_string hg'.2.2
        simp only [ht] at h
        unfold normalizeEventSwitch at h
        by_cases t1 : t = "neuron_registered"
        · subst t1
          rw [if_pos rfl] at h
          cases (Except.ok.injEq _ _).mp h
          rfl
        · rw [if_neg t1] at h
          by_cases t2 : t = "neuron_removed"
          · subst t2
            rw [if_pos rfl] at h
            cases (Except.ok.injEq _ _).mp h
            rfl
          · rw [if_neg t2] at h
            by_cases t3 : t = "neuron_heartbeat"
            · subst t3
              rw [if_pos rfl] at h
              cases (Except.ok.injEq _ _).mp h
              have hred : normalizeMessageE
                  (mkEvent
                    [("type", .str "neuron_heartbeat"),
                     ("neuron_id", .str (jsToString (getD (getD w "event") "neuron_id"))),
                     ("metrics", nc (getD (getD w "event") "metrics") (.obj []))]) =
                  .ok (mkEvent
                    [("type", .str "neuron_heartbeat"),
                     ("neuron_id", .str (jsToString (getD (getD w "event") "neuron_id"))),
                     ("metrics",
                      nc (nc (getD (getD w "event") "metrics") (.obj [])) (.obj []))]) := rfl
              rw [hred, nc_obj_idem]
            · rw [if_neg t3] at h
              by_cases t4 : t = "provisioning_sent"
              · subst t4
                rw [if_pos rfl] at h
                rcases hcm : normalizeProvisioningCommandE (getD (getD w "event") "cmd")
                  with err | cmd
                · rw [hcm] at h; cases h
                · rw [hcm] at h
                  cases (Except.ok.injEq _ _).mp h
                  have hred : normalizeMessageE
                      (mkEvent
                        [("type", .str "provisioning_sent"),
                         ("neuron_id",
                          .str (jsToString (getD (getD w "event") "neuron_id"))),
                         ("cmd", cmd)]) =
                      (match normalizeProvisioningCommandE cmd with
                        | .error e => .error e
                        | .ok c2 =>
                          .ok (mkEvent
                            [("type", .str "provisioning_sent"),
                             ("neuron_id",
                              .str (jsToString (getD (getD w "event") "neuron_id"))),
                             ("cmd", c2)])) := rfl
                  rw [hred, normalizeProvisioningCommandE_idem hcm]
              · rw [if_neg t4] at h
                by_cases t5 : t = "provisioning_response"
                · subst t5
                  rw [if_pos rfl] at h
                  cases (Except.ok.injEq _ _).mp h
                  rfl
                · rw [if_neg t5] at h
                  by_cases t6 : t = "model_state_changed"
                  · subst t6
                    rw [if_pos rfl] at h
                    rcases hms : exMap normalizeModelStatusE
                        (if isArrayJs (getD (getD w "event") "models") = true then
                          arrElems (getD (getD w "event") "models")
                        else []) with err | models
                    · rw [hms] at h; cases h
                    · rw [hms] at h
                      cases (Except.ok.injEq _ _).mp h
                      have hfix : ∀ y ∈ models, normalizeModelStatusE y = .ok y :=
                        fun y hy => (exMap_ok_mem hms y hy).elim
                          (fun x hx => normalizeModelStatusE_idem hx)
                      have hred : normalizeMessageE
                          (mkEvent
                            [("type", .str "model_state_changed"),
                             ("neuron_id",
                              .str (jsToString (getD (getD w "event") "neuron_id"))),
                             ("models", .arr models)]) =
                          (match exMap normalizeModelStatusE models with
                            | .error e => .error e
                            | .ok ms =>
                              .ok (mkEvent
                                [("type", .str "model_state_changed"),
                                 ("neuron_id",
                                  .str (jsToString (getD (getD w "event") "neuron_id"))),
                                 ("models", .arr ms)])) := rfl
                      rw [hred, exMap_fixed hfix]
                  · rw [if_neg t6] at h
                    by_cases t7 : t = "cortex_shutdown_notice"
                    · subst t7
                      rw [if_pos rfl] at h
                      cases (Except.ok.injEq _ _).mp h
                      have hred : normalizeMessageE
                          (mkEvent
                            [("type", .str "cortex_shutdown_notice"),
                             ("reason", nc (getD (getD w "event") "reason") .null)]) =
                          .ok (mkEvent
                            [("type", .str "cortex_shutdown_notice"),
                             ("reason",
                              nc (nc (getD (getD w "event") "reason") .null) .null)]) := rfl
                      rw [hred, nc_null_idem]
                    · rw [if_neg t7] at h
                      cases (Except.ok.injEq _ _).mp h
                      unfold normalizeMessageE
                      simp only [hke]
                      rw [if_neg hs, if_neg hg]
                      simp only [ht]
                      unfold normalizeEventSwitch
                      rw [if_neg t1, if_neg t2, if_neg t3, if_neg t4, if_neg t5,
                        if_neg t6, if_neg t7]

/-- C6: normalization is idempotent.  In the exception monad modelling the
possible `TypeError`s, post-composing `normalizeMessage` with itself is
`normalizeMessage`: whenever `normalizeMessage m` succeeds with value `v`
(including its snapshot, provisioning commands and model ids),
`normalizeMessage v = v`, and a throwing input throws identically. -/
theorem normalizeMessage_idempotent (m : JsVal) :
    (normalizeMessageE m).bind normalizeMessageE = normalizeMessageE m := by
  rcases hm : normalizeMessageE m with err | v
  · rfl
  · show Except.bind (Except.ok v) normalizeMessageE = Except.ok v
    show normalizeMessageE v = Except.ok v
    exact normalizeMessageE_idem hm

/-- C4: every lifecycle callback (open, message, error, close) whose captured
connection handle differs from the currently stored handle is a complete
no-op: the entire component state — connection status, neuron table, event
log, last error, shutdown state and both kinds of timers — is left
unchanged. -/
theorem stale_callbacks_are_noops (s : DashState) (h : Nat)
    (parsed : Option JsVal) (rAt nIso : String)
    (hstale : currentId s ≠ some h) :
    wsOnopen h s = s ∧ wsOnmessage h parsed rAt nIso s = s ∧
    wsOnerror h s = s ∧ wsOnclose h s = s := by
  unfold wsOnopen wsOnmessage wsOnerror wsOnclose
  simp [hstale]

/-- Witness for `stale_callbacks_are_noops`: socket 7 is not the stored
socket of `demoOpen` (socket 0), and all four of its callbacks leave the
state untouched. -/
theorem stale_callbacks_are_noops_witness :
    currentId demoOpen ≠ some 7 ∧
    (wsOnopen 7 demoOpen = demoOpen ∧
      wsOnmessage 7 none "t" "T" demoOpen = demoOpen ∧
      wsOnerror 7 demoOpen = demoOpen ∧ wsOnclose 7 demoOpen = demoOpen) :=
  ⟨by decide, stale_callbacks_are_noops demoOpen 7 none "t" "T" (by decide)⟩

/-- C2 (code bug): the retry machinery never initiates a reconnect.  In
trace A (shutdown notice, then close, then the 60-second timer firing) the
timer does fire and the state becomes `connecting`, but no new socket is
ever constructed (`connectCount` stays 1) because `wsRef.current` still
holds the closed socket and is never cleared, so the effect guard
`connectionStatus === "connecting" && !wsRef.current` blocks `connect()`.
In trace B (plain close, then the 60-second mark) the status change at the
close commits an effect cleanup that cancels the just-scheduled retry timer,
so the timer never fires at all and the client stays in `polling` forever.
The claim (and the source's own comment at lines 767-770 plus the UI copy at
line 828) say a new connect attempt is initiated every 60 seconds. -/
theorem retry_timer_never_reconnects :
    (runOps mountDash c2TraceA).connectionStatus = .connecting ∧
    (runOps mountDash c2TraceA).connectCount = 1 ∧
    (runOps mountDash c2TraceA).wsCurrent = some (0, 3) ∧
    (runOps mountDash c2TraceB).pollingTimer = false ∧
    (runOps mountDash c2TraceB).connectionStatus = .polling ∧
    (runOps mountDash c2TraceB).connectCount = 1 :=
  ⟨rfl, rfl, rfl, rfl, rfl, rfl⟩

/-- C1 (code bug): processing a `model_state_changed` event for a matched
neuron does not touch the neuron table at all — the event is only appended
to the log.  Concretely: with a table holding neuron `n1` whose model list
is empty, a `model_state_changed` frame for `n1` carrying one normalized
model leaves the table exactly as it was (the neuron's model list stays
empty rather than being replaced by the event's non-empty list). -/
theorem modelStateChanged_is_log_only_at_failing_input :
    (wsOnmessage 0 (some mscWire) "t" "T" demoTable).snapshot = demoTable.snapshot ∧
    (wsOnmessage 0 (some mscWire) "t" "T" demoTable).events.length = 1 ∧
    normalizeMessageE mscWire =
      .ok (mkEvent
        [("type", .str "model_state_changed"),
         ("neuron_id", .str "n1"),
         ("models", mscNormModels)]) ∧
    getD demoNeuron "models" = .arr [] ∧
    mscNormModels ≠ .arr [] := by
  refine ⟨rfl, rfl, rfl, rfl, ?_⟩
  simp [mscNormModels]

end Cortex
